import Mathlib

/-!
Verification of the MONARCH congressional-trades signal server.

This development shallowly embeds the server's core logic: the Donchian
channel tagger (`computeDonchianTag`), the attribute filter
(`filterTrades`), the lookup-by-id route, and the signals route with its
two derived-predicate filters. Numeric indicator values are modelled as
rationals; each optional field of the data model is an `Option`.
-/

/-- Transaction direction of a congressional trade (`types.ts`). -/
inductive TransactionType
  | Purchase
  | Sale
deriving DecidableEq, Repr

/-- Per-ticker, per-date technical reading (`TechSignals` in `types.ts`);
every indicator field is independently nullable. -/
structure TechSignals where
  ticker : String
  date : String
  rsi14 : Option Rat
  macd : Option Rat
  macdSignal : Option Rat
  macdHist : Option Rat
  sma20 : Option Rat
  sma50 : Option Rat
  sma200 : Option Rat
  bandUpper : Option Rat
  bandLower : Option Rat
  donchianHigh20 : Option Rat
  donchianLow20 : Option Rat
  donchianMid20 : Option Rat
deriving DecidableEq, Repr

/-- Channel zone of a `DonchianTag` (`"upper" | "mid" | "lower"`). -/
inductive Zone
  | upper
  | mid
  | lower
deriving DecidableEq, Repr

/-- Derived channel-position tag (`DonchianTag` in `types.ts`);
`zone` may be null. -/
structure DonchianTag where
  breakoutLong : Bool
  breakdownShort : Bool
  zone : Option Zone
deriving DecidableEq, Repr

/-- A disclosed trade together with its optional indicator snapshot and
its (optional, nullable) attached tag (`TradeWithSignals` in `types.ts`). -/
structure TradeWithSignals where
  id : Int
  ticker : Option String
  securityName : String
  assetType : String
  transaction : TransactionType
  amountMin : Option Rat
  amountMax : Option Rat
  politicianName : String
  office : String
  party : String
  stateDistrict : Option String
  filedDate : String
  tradedDate : String
  ownerType : Option String
  description : Option String
  perfSince : Option Rat
  signals : Option TechSignals
  donchian : Option (Option DonchianTag)
deriving DecidableEq, Repr

/-- Base zone classification of `computeDonchianTag` (server `index.ts`):
the ordered `if` chain assigning `upper`, `mid`, `lower` or null. -/
def baseZone (price donchianHigh20 donchianLow20 donchianMid20 : Rat) :
    Option Zone :=
  if price ≥ donchianMid20 ∧ price ≤ donchianHigh20 then some Zone.upper
  else if price < donchianMid20 ∧ price > donchianLow20 then some Zone.mid
  else if price ≤ donchianLow20 then some Zone.lower
  else none

/-- The server's `computeDonchianTag`: returns null when the snapshot
or any of {sma20, donchianHigh20, donchianLow20, donchianMid20} is null;
otherwise base-classifies the zone and then applies the
breakout/breakdown override. -/
def computeDonchianTag (trade : TradeWithSignals) : Option DonchianTag :=
  match trade.signals with
  | none => none
  | some signals =>
    match signals.sma20, signals.donchianHigh20, signals.donchianLow20,
        signals.donchianMid20 with
    | some price, some donchianHigh20, some donchianLow20,
        some donchianMid20 =>
      let zone := baseZone price donchianHigh20 donchianLow20 donchianMid20
      if trade.transaction = TransactionType.Purchase ∧
          price > donchianHigh20 then
        some { breakoutLong := true, breakdownShort := false,
               zone := some Zone.upper }
      else if trade.transaction = TransactionType.Sale ∧
          price < donchianLow20 then
        some { breakoutLong := false, breakdownShort := true,
               zone := some Zone.lower }
      else
        some { breakoutLong := false, breakdownShort := false, zone := zone }
    | _, _, _, _ => none

/-- The server's `attachDonchian`: annotate a trade with its tag. -/
def attachDonchian (trade : TradeWithSignals) : TradeWithSignals :=
  { trade with donchian := some (computeDonchianTag trade) }

/-- Optional query parameters of `filterTrades`. -/
structure FilterParams where
  ticker : Option String
  party : Option String
  transaction : Option String
deriving DecidableEq, Repr

/-- String form of a transaction direction, as it appears in JSON. -/
def transactionString : TransactionType → String
  | TransactionType.Purchase => "Purchase"
  | TransactionType.Sale => "Sale"

/-- Model of JavaScript `toLowerCase()`: lowercase every character. -/
def lowerString (s : String) : String :=
  String.mk (s.data.map Char.toLower)

/-- Model of JavaScript `trim()`: strip leading and trailing whitespace. -/
def trimString (s : String) : String :=
  String.mk
    (((s.data.dropWhile Char.isWhitespace).reverse.dropWhile
      Char.isWhitespace).reverse)

/-- The ticker guard of `filterTrades`: a falsy (absent or empty) parameter
imposes no constraint; otherwise the trade's ticker, lowercased, must equal
the lowercased parameter, and an absent ticker never matches. -/
def tickerOk (param : Option String) (trade : TradeWithSignals) : Bool :=
  match param with
  | none => true
  | some s =>
    if s = "" then true
    else
      match trade.ticker with
      | some tk => lowerString tk = lowerString s
      | none => false

/-- The party guard of `filterTrades` (case-insensitive equality;
a falsy parameter imposes no constraint). -/
def partyOk (param : Option String) (trade : TradeWithSignals) : Bool :=
  match param with
  | none => true
  | some s =>
    if s = "" then true else lowerString trade.party = lowerString s

/-- The transaction guard of `filterTrades` (case-insensitive equality on
the string form; a falsy parameter imposes no constraint). -/
def transactionOk (param : Option String) (trade : TradeWithSignals) : Bool :=
  match param with
  | none => true
  | some s =>
    if s = "" then true
    else lowerString (transactionString trade.transaction) = lowerString s

/-- The per-trade predicate of `filterTrades`: conjunction of the three
optional guards. -/
def tradePasses (params : FilterParams) (trade : TradeWithSignals) : Bool :=
  tickerOk params.ticker trade && partyOk params.party trade &&
    transactionOk params.transaction trade

/-- The server's `filterTrades`, generalized over the trade collection
it closes over (`mockTrades`). -/
def filterTrades (trades : List TradeWithSignals) (params : FilterParams) :
    List TradeWithSignals :=
  trades.filter (tradePasses params)

/-- The general listing route `GET /api/trades/congress`:
filter, then annotate each surviving trade. -/
def listTradesRoute (trades : List TradeWithSignals) (params : FilterParams) :
    List TradeWithSignals :=
  (filterTrades trades params).map attachDonchian

/-- Outcome of lookup-by-id: the annotated trade, or an explicit
not-found result (surfaced as HTTP 404 by the boundary). -/
inductive LookupResult
  | found (trade : TradeWithSignals)
  | notFound
deriving DecidableEq, Repr

/-- The route `GET /api/trades/congress/:id`: find the first trade with
the requested identifier and annotate it, else not-found. -/
def lookupTradeById (trades : List TradeWithSignals) (ident : Int) :
    LookupResult :=
  match trades.find? (fun t => t.id = ident) with
  | some t => LookupResult.found (attachDonchian t)
  | none => LookupResult.notFound

/-- The `bullishOnly` predicate of the signals route:
`(rsi14 ?? 0) > 55 && (macdHist ?? 0) > 0`. -/
def bullishPredicate (trade : TradeWithSignals) : Bool :=
  match trade.signals with
  | none => false
  | some signals =>
    decide (signals.rsi14.getD 0 > 55) && decide (signals.macdHist.getD 0 > 0)

/-- The `donchianBreakoutsOnly` predicate of the signals route:
the computed tag exists and has a breakout or breakdown flag set. -/
def donchianBreakoutPredicate (trade : TradeWithSignals) : Bool :=
  match computeDonchianTag trade with
  | some tag => tag.breakoutLong || tag.breakdownShort
  | none => false

/-- The signals route `GET /api/trades/congress/signals`: restrict to
trades with a non-null snapshot, then optionally apply the bullish and
breakout filters, then annotate. -/
def signalsRoute (trades : List TradeWithSignals)
    (bullishOnly donchianBreakoutsOnly : Bool) : List TradeWithSignals :=
  let withSignals := trades.filter (fun t => t.signals.isSome)
  let afterBullish :=
    if bullishOnly then withSignals.filter bullishPredicate else withSignals
  let afterBreakouts :=
    if donchianBreakoutsOnly then
      afterBullish.filter donchianBreakoutPredicate
    else afterBullish
  afterBreakouts.map attachDonchian

/-- Boundary decoding of the boolean flags: true exactly when the raw
string form is exactly the literal `"true"`. -/
def decodeFlag (value : Option String) : Bool :=
  value = some "true"

/-- Boundary decoding of a string query parameter in the listing route:
passed through unchanged when it is a string, absent otherwise. -/
def decodeStringParam (value : Option String) : Option String :=
  value

/-- Modelled from the spec: the spec's description of boundary decoding of
a string query parameter — trimmed, with an empty result treated as not
provided. Stated for comparison with `decodeStringParam`, the decoding the
server actually performs. -/
def decodeStringParamSpec (value : Option String) : Option String :=
  match value with
  | none => none
  | some s => if trimString s = "" then none else some (trimString s)

/-- A concrete snapshot builder used in theorems: all indicator fields
absent except the four the tagger reads. -/
def mkChannelSignals (sma20 dHigh dLow dMid : Option Rat) : TechSignals :=
  { ticker := "AAPL", date := "2024-01-05", rsi14 := none, macd := none,
    macdSignal := none, macdHist := none, sma20 := sma20, sma50 := none,
    sma200 := none, bandUpper := none, bandLower := none,
    donchianHigh20 := dHigh, donchianLow20 := dLow, donchianMid20 := dMid }

/-- A concrete trade builder used in theorems. -/
def mkTrade (tx : TransactionType) (signals : Option TechSignals) :
    TradeWithSignals :=
  { id := 1, ticker := some "AAPL", securityName := "Apple Inc",
    assetType := "Stock", transaction := tx, amountMin := some 1000,
    amountMax := some 15000, politicianName := "Jane Doe",
    office := "House", party := "D", stateDistrict := some "CA-12",
    filedDate := "2024-01-10", tradedDate := "2024-01-05",
    ownerType := none, description := none, perfSince := none,
    signals := signals, donchian := none }

/-- A snapshot with bullish RSI (60) but an absent MACD histogram. -/
def bullishEdgeSignals : TechSignals :=
  { mkChannelSignals (some 100) (some 110) (some 90) (some 100) with
    rsi14 := some 60, macdHist := none }

/-- The trade carrying `bullishEdgeSignals`. -/
def bullishEdgeTrade : TradeWithSignals :=
  mkTrade TransactionType.Purchase (some bullishEdgeSignals)

/-- A trade whose ticker is `"MSFT"` (uppercase). -/
def msftTrade : TradeWithSignals :=
  { mkTrade TransactionType.Purchase none with
    id := 2,
    ticker := some "MSFT" }

/-- A trade whose ticker is absent. -/
def noTickerTrade : TradeWithSignals :=
  { mkTrade TransactionType.Sale none with
    id := 3,
    ticker := none }

example :
    computeDonchianTag
      (mkTrade TransactionType.Purchase
        (some (mkChannelSignals (some 100) (some 110) (some 90) (some 100)))) =
      some { breakoutLong := false, breakdownShort := false,
             zone := some Zone.upper } := by decide

example :
    computeDonchianTag
      (mkTrade TransactionType.Sale
        (some (mkChannelSignals (some 111) (some 110) (some 90) (some 100)))) =
      some { breakoutLong := false, breakdownShort := false, zone := none } :=
  by decide

/-! ## Helper lemmas -/

theorem attachDonchian_id (t : TradeWithSignals) :
    (attachDonchian t).id = t.id := rfl

theorem attachDonchian_signals (t : TradeWithSignals) :
    (attachDonchian t).signals = t.signals := rfl

theorem filter_and_comm (l : List TradeWithSignals)
    (p q : TradeWithSignals → Bool) :
    l.filter (fun a => p a && q a) = l.filter (fun a => q a && p a) :=
  List.filter_congr (fun a _ => by rw [Bool.and_comm])

theorem computeDonchianTag_mk (tx : TransactionType)
    (p donchianHigh20 donchianLow20 donchianMid20 : Rat) :
    computeDonchianTag
      (mkTrade tx
        (some (mkChannelSignals (some p) (some donchianHigh20)
          (some donchianLow20) (some donchianMid20)))) =
      (if tx = TransactionType.Purchase ∧ p > donchianHigh20 then
        some { breakoutLong := true, breakdownShort := false,
               zone := some Zone.upper }
      else if tx = TransactionType.Sale ∧ p < donchianLow20 then
        some { breakoutLong := false, breakdownShort := true,
               zone := some Zone.lower }
      else
        some { breakoutLong := false, breakdownShort := false,
               zone := baseZone p donchianHigh20 donchianLow20
                 donchianMid20 }) := rfl

/-! ## Claims -/

/-- C1: for a trade whose snapshot has all four of
{donchianHigh20, donchianLow20, donchianMid20, sma20} present, the base
zone classification with bounds `M ≤ p ≤ H → upper`, `L < p < M → mid`,
`p ≤ L → lower`, absent otherwise, evaluated in this order; in particular
`p = M` gives upper, `p = L` gives lower (never mid), and `p = H` gives
upper with no breakout flag. -/
theorem classify_base_zone_classification
    (p donchianHigh20 donchianLow20 donchianMid20 : Rat)
    (hLM : donchianLow20 < donchianMid20)
    (hMH : donchianMid20 ≤ donchianHigh20) :
    (donchianMid20 ≤ p → p ≤ donchianHigh20 →
      baseZone p donchianHigh20 donchianLow20 donchianMid20 =
        some Zone.upper) ∧
    (donchianLow20 < p → p < donchianMid20 →
      baseZone p donchianHigh20 donchianLow20 donchianMid20 =
        some Zone.mid) ∧
    (p ≤ donchianLow20 →
      baseZone p donchianHigh20 donchianLow20 donchianMid20 =
        some Zone.lower) ∧
    (donchianHigh20 < p →
      baseZone p donchianHigh20 donchianLow20 donchianMid20 = none) ∧
    (baseZone donchianMid20 donchianHigh20 donchianLow20 donchianMid20 =
      some Zone.upper) ∧
    (baseZone donchianLow20 donchianHigh20 donchianLow20 donchianMid20 =
      some Zone.lower) ∧
    (∀ tx : TransactionType,
      computeDonchianTag
        (mkTrade tx
          (some (mkChannelSignals (some donchianHigh20)
            (some donchianHigh20) (some donchianLow20)
            (some donchianMid20)))) =
        some { breakoutLong := false, breakdownShort := false,
               zone := some Zone.upper }) := by
  refine ⟨?_, ?_, ?_, ?_, ?_, ?_, ?_⟩
  · intro h1 h2
    simp only [baseZone, if_pos (And.intro h1 h2)]
  · intro h1 h2
    have hnot : ¬ (p ≥ donchianMid20 ∧ p ≤ donchianHigh20) := by
      intro h; exact absurd h.1 (not_le.mpr h2)
    simp only [baseZone, if_neg hnot, if_pos (And.intro h2 h1)]
  · intro h1
    have hpm : p < donchianMid20 := lt_of_le_of_lt h1 hLM
    have hnot : ¬ (p ≥ donchianMid20 ∧ p ≤ donchianHigh20) := by
      intro h; exact absurd h.1 (not_le.mpr hpm)
    have hnot2 : ¬ (p < donchianMid20 ∧ p > donchianLow20) := by
      intro h; exact absurd h1 (not_le.mpr h.2)
    simp only [baseZone, if_neg hnot, if_neg hnot2, if_pos h1]
  · intro h1
    have hlp : donchianLow20 < p :=
      lt_of_lt_of_le hLM (le_trans hMH (le_of_lt h1))
    have hnot : ¬ (p ≥ donchianMid20 ∧ p ≤ donchianHigh20) := by
      intro h; exact absurd h.2 (not_le.mpr h1)
    have hnot2 : ¬ (p < donchianMid20 ∧ p > donchianLow20) := by
      intro h
      exact absurd (le_trans hMH (le_of_lt h1)) (not_le.mpr h.1)
    have hnot3 : ¬ (p ≤ donchianLow20) := not_le.mpr hlp
    simp only [baseZone, if_neg hnot, if_neg hnot2, if_neg hnot3]
  · simp only [baseZone, if_pos (And.intro (le_refl donchianMid20) hMH)]
  · have hpm : donchianLow20 < donchianMid20 := hLM
    have hnot : ¬ (donchianLow20 ≥ donchianMid20 ∧
        donchianLow20 ≤ donchianHigh20) := by
      intro h; exact absurd h.1 (not_le.mpr hpm)
    have hnot2 : ¬ (donchianLow20 < donchianMid20 ∧
        donchianLow20 > donchianLow20) := by
      intro h; exact absurd h.2 (lt_irrefl donchianLow20)
    simp only [baseZone, if_neg hnot, if_neg hnot2,
      if_pos (le_refl donchianLow20)]
  · intro tx
    have hzone : baseZone donchianHigh20 donchianHigh20 donchianLow20
        donchianMid20 = some Zone.upper := by
      simp only [baseZone,
        if_pos (And.intro (le_trans hMH (le_refl donchianHigh20))
          (le_refl donchianHigh20))]
    have hH : ¬ (donchianHigh20 > donchianHigh20) := lt_irrefl donchianHigh20
    have hL : ¬ (donchianHigh20 < donchianLow20) :=
      not_lt.mpr (le_trans (le_of_lt hLM) hMH)
    cases tx with
    | Purchase =>
      simp only [computeDonchianTag, mkTrade, mkChannelSignals, hzone]
      rw [if_neg (fun h => hH h.2), if_neg (by intro h; cases h.1)]
    | Sale =>
      simp only [computeDonchianTag, mkTrade, mkChannelSignals, hzone]
      rw [if_neg (by intro h; cases h.1), if_neg (fun h => hL h.2)]

/-- C1 witness: the classification theorem instantiated on the concrete
channel low 90, mid 100, high 110 at price 95. -/
theorem classify_base_zone_classification_witness :
    ((90 : Rat) < 100 ∧ (100 : Rat) ≤ 110) ∧
    ((90 : Rat) < 95 → (95 : Rat) < 100 →
      baseZone 95 110 90 100 = some Zone.mid) :=
  ⟨⟨by norm_num, by norm_num⟩,
    (classify_base_zone_classification 95 110 90 100 (by norm_num)
      (by norm_num)).2.1⟩

/-- C2: with all four channel fields present and an ordered channel
`L ≤ M ≤ H`, the override after base classification: Purchase with
`p > H` gives `breakoutLong = true` and zone upper; Sale with `p < L`
gives `breakdownShort = true` and zone lower; Sale with `p > H` gets no
override and its zone stays absent; Purchase with `p < L` gets no
override and its zone stays the base zone lower. -/
theorem classify_breakout_override
    (tx : TransactionType) (p donchianHigh20 donchianLow20 donchianMid20 : Rat)
    (hLM : donchianLow20 ≤ donchianMid20)
    (hMH : donchianMid20 ≤ donchianHigh20) :
    let trade := mkTrade tx
      (some (mkChannelSignals (some p) (some donchianHigh20)
        (some donchianLow20) (some donchianMid20)))
    (tx = TransactionType.Purchase → donchianHigh20 < p →
      computeDonchianTag trade =
        some { breakoutLong := true, breakdownShort := false,
               zone := some Zone.upper }) ∧
    (tx = TransactionType.Sale → p < donchianLow20 →
      computeDonchianTag trade =
        some { breakoutLong := false, breakdownShort := true,
               zone := some Zone.lower }) ∧
    (tx = TransactionType.Sale → donchianHigh20 < p →
      computeDonchianTag trade =
        some { breakoutLong := false, breakdownShort := false,
               zone := none }) ∧
    (tx = TransactionType.Purchase → p < donchianLow20 →
      computeDonchianTag trade =
        some { breakoutLong := false, breakdownShort := false,
               zone := some Zone.lower }) := by
  intro trade
  refine ⟨?_, ?_, ?_, ?_⟩
  · intro htx hp
    subst htx
    rw [computeDonchianTag_mk, if_pos (And.intro rfl hp)]
  · intro htx hp
    subst htx
    rw [computeDonchianTag_mk,
      if_neg (fun h => TransactionType.noConfusion h.1),
      if_pos (And.intro rfl hp)]
  · intro htx hp
    subst htx
    have hzone : baseZone p donchianHigh20 donchianLow20 donchianMid20 =
        none := by
      have hnot : ¬ (p ≥ donchianMid20 ∧ p ≤ donchianHigh20) := by
        intro h; exact absurd h.2 (not_le.mpr hp)
      have hnot2 : ¬ (p < donchianMid20 ∧ p > donchianLow20) := by
        intro h
        exact absurd (le_trans hMH (le_of_lt hp)) (not_le.mpr h.1)
      have hnot3 : ¬ (p ≤ donchianLow20) :=
        not_le.mpr (lt_of_le_of_lt (le_trans hLM hMH) hp)
      simp only [baseZone, if_neg hnot, if_neg hnot2, if_neg hnot3]
    rw [computeDonchianTag_mk,
      if_neg (fun h => TransactionType.noConfusion h.1),
      if_neg (fun h =>
        absurd (lt_trans h.2 (lt_of_le_of_lt (le_trans hLM hMH) hp))
          (lt_irrefl p)),
      hzone]
  · intro htx hp
    subst htx
    have hzone : baseZone p donchianHigh20 donchianLow20 donchianMid20 =
        some Zone.lower := by
      have hpm : p < donchianMid20 := lt_of_lt_of_le hp hLM
      have hnot : ¬ (p ≥ donchianMid20 ∧ p ≤ donchianHigh20) := by
        intro h; exact absurd h.1 (not_le.mpr hpm)
      have hnot2 : ¬ (p < donchianMid20 ∧ p > donchianLow20) := by
        intro h; exact absurd hp (not_lt.mpr (le_of_lt h.2))
      simp only [baseZone, if_neg hnot, if_neg hnot2,
        if_pos (le_of_lt hp)]
    rw [computeDonchianTag_mk,
      if_neg (fun h =>
        absurd (lt_trans (lt_of_lt_of_le hp (le_trans hLM hMH)) h.2)
          (lt_irrefl p)),
      if_neg (fun h => TransactionType.noConfusion h.1),
      hzone]

/-- C2 witness: the override theorem instantiated on channel 90/100/110
at price 111 for a Purchase, giving a breakout-long tag. -/
theorem classify_breakout_override_witness :
    ((90 : Rat) ≤ 100 ∧ (100 : Rat) ≤ 110) ∧
    (TransactionType.Purchase = TransactionType.Purchase →
      (110 : Rat) < 111 →
      computeDonchianTag
        (mkTrade TransactionType.Purchase
          (some (mkChannelSignals (some 111) (some 110) (some 90)
            (some 100)))) =
        some { breakoutLong := true, breakdownShort := false,
               zone := some Zone.upper }) :=
  ⟨⟨by norm_num, by norm_num⟩,
    (classify_breakout_override TransactionType.Purchase 111 110 90 100
      (by norm_num) (by norm_num)).1⟩

/-- C3: `computeDonchianTag` returns absent (never a tag with null flag
fields) exactly when the snapshot is absent or one of donchianHigh20,
donchianLow20, donchianMid20, sma20 is absent; and in that case the
result stays absent for every transaction direction. -/
theorem classify_absent_iff_missing (trade : TradeWithSignals) :
    (computeDonchianTag trade = none ↔
      trade.signals = none ∨
        ∃ s, trade.signals = some s ∧
          (s.sma20 = none ∨ s.donchianHigh20 = none ∨
            s.donchianLow20 = none ∨ s.donchianMid20 = none)) ∧
    (computeDonchianTag trade = none →
      ∀ tx, computeDonchianTag { trade with transaction := tx } = none) := by
  have key : ∀ t : TradeWithSignals,
      computeDonchianTag t = none ↔
        t.signals = none ∨
          ∃ s, t.signals = some s ∧
            (s.sma20 = none ∨ s.donchianHigh20 = none ∨
              s.donchianLow20 = none ∨ s.donchianMid20 = none) := by
    intro t
    rcases hs : t.signals with _ | s
    · simp [computeDonchianTag, hs]
    · rcases h1 : s.sma20 with _ | p <;>
        rcases h2 : s.donchianHigh20 with _ | dH <;>
          rcases h3 : s.donchianLow20 with _ | dL <;>
            rcases h4 : s.donchianMid20 with _ | dM <;>
              (simp [computeDonchianTag, hs, h1, h2, h3, h4];
                try (split_ifs <;> simp))
  refine ⟨key trade, ?_⟩
  intro h tx
  rw [key] at h
  rw [key]
  rcases h with h | ⟨s, hs, hmiss⟩
  · exact Or.inl h
  · exact Or.inr ⟨s, hs, hmiss⟩

/-- C3 witness: the absence characterization instantiated on a trade
whose snapshot is present but lacks donchianMid20. -/
theorem classify_absent_iff_missing_witness :
    computeDonchianTag
      (mkTrade TransactionType.Purchase
        (some (mkChannelSignals (some 100) (some 110) (some 90) none))) =
      none :=
  (classify_absent_iff_missing
    (mkTrade TransactionType.Purchase
      (some (mkChannelSignals (some 100) (some 110) (some 90) none)))).1.mpr
    (Or.inr ⟨mkChannelSignals (some 100) (some 110) (some 90) none, rfl,
      Or.inr (Or.inr (Or.inr rfl))⟩)

/-- C4: in signals mode with `bullishOnly` set, a trade with a present
snapshot is kept exactly when its rsi14 coalesced to 0 exceeds 55 and its
macdHist coalesced to 0 exceeds 0; a trade with rsi14 = 60 and macdHist
absent is excluded. -/
theorem signals_bullish_filter
    (t : TradeWithSignals) (s : TechSignals) (hs : t.signals = some s) :
    (bullishPredicate t = true ↔
      s.rsi14.getD 0 > 55 ∧ s.macdHist.getD 0 > 0) ∧
    (∀ l : List TradeWithSignals,
      signalsRoute l true false =
        (l.filter (fun u => u.signals.isSome && bullishPredicate u)).map
          attachDonchian) ∧
    (bullishPredicate bullishEdgeTrade = false) ∧
    (signalsRoute [bullishEdgeTrade] true false = []) := by
  refine ⟨?_, ?_, by decide, by decide⟩
  · simp [bullishPredicate, hs]
  · intro l
    show ((l.filter (fun u => u.signals.isSome)).filter
        bullishPredicate).map attachDonchian = _
    rw [List.filter_filter]
    exact congrArg (List.map attachDonchian)
      (List.filter_congr (fun a _ => by rw [Bool.and_comm]))

/-- C4 witness: the bullish-filter characterization instantiated on the
concrete trade with rsi14 = 60 and absent macdHist. -/
theorem signals_bullish_filter_witness :
    bullishPredicate bullishEdgeTrade = true ↔
      bullishEdgeSignals.rsi14.getD 0 > 55 ∧
        bullishEdgeSignals.macdHist.getD 0 > 0 :=
  (signals_bullish_filter bullishEdgeTrade bullishEdgeSignals rfl).1

/-- C5: the signals route first restricts to trades with a present
snapshot; `donchianBreakoutsOnly` keeps exactly the trades whose tag has
`breakoutLong` or `breakdownShort` true; and setting both flags keeps
exactly the trades satisfying both predicates (logical AND). -/
theorem signals_mode_composition (l : List TradeWithSignals) :
    (signalsRoute l false false =
      (l.filter (fun t => t.signals.isSome)).map attachDonchian) ∧
    (signalsRoute l false true =
      (l.filter (fun t =>
        t.signals.isSome && donchianBreakoutPredicate t)).map
        attachDonchian) ∧
    (signalsRoute l true true =
      (l.filter (fun t =>
        t.signals.isSome && bullishPredicate t &&
          donchianBreakoutPredicate t)).map attachDonchian) ∧
    (∀ t, donchianBreakoutPredicate t = true ↔
      ∃ tag, computeDonchianTag t = some tag ∧
        (tag.breakoutLong = true ∨ tag.breakdownShort = true)) := by
  refine ⟨rfl, ?_, ?_, ?_⟩
  · show ((l.filter (fun t => t.signals.isSome)).filter
        donchianBreakoutPredicate).map attachDonchian = _
    rw [List.filter_filter]
    exact congrArg (List.map attachDonchian)
      (List.filter_congr (fun a _ => by rw [Bool.and_comm]))
  · show (((l.filter (fun t => t.signals.isSome)).filter
        bullishPredicate).filter donchianBreakoutPredicate).map
        attachDonchian = _
    rw [List.filter_filter, List.filter_filter]
    refine congrArg (List.map attachDonchian)
      (List.filter_congr (fun a _ => ?_))
    cases hp : a.signals.isSome <;> cases hq : bullishPredicate a <;>
      cases hr : donchianBreakoutPredicate a <;> simp [hp, hq, hr]
  · intro t
    cases h : computeDonchianTag t with
    | none => simp [donchianBreakoutPredicate, h]
    | some tag => simp [donchianBreakoutPredicate, h]

/-- C6: `filterTrades` combines the optional ticker, party and
transaction equality filters with logical AND under case-insensitive
comparison; an absent ticker never matches a non-empty ticker filter;
and the filter `"msft"` matches the trade with ticker `"MSFT"` while
excluding the trade with absent ticker. -/
theorem filter_conjunction_case_insensitive
    (l : List TradeWithSignals) (params : FilterParams)
    (t : TradeWithSignals) :
    (t ∈ filterTrades l params ↔
      t ∈ l ∧ tickerOk params.ticker t = true ∧
        partyOk params.party t = true ∧
        transactionOk params.transaction t = true) ∧
    (∀ s : String, s ≠ "" → t.ticker = none →
      tickerOk (some s) t = false) ∧
    (tickerOk (some "msft") msftTrade = true) ∧
    (filterTrades [msftTrade, noTickerTrade]
      { ticker := some "msft", party := none, transaction := none } =
      [msftTrade]) := by
  refine ⟨?_, ?_, by decide, by decide⟩
  · simp [filterTrades, List.mem_filter, tradePasses, Bool.and_eq_true,
      and_assoc]
  · intro s hs ht
    simp [tickerOk, ht, hs]

/-- C6 witness: the absent-ticker clause instantiated on the concrete
trade with no ticker and the filter string `"msft"`. -/
theorem filter_conjunction_case_insensitive_witness :
    tickerOk (some "msft") noTickerTrade = false :=
  (filter_conjunction_case_insensitive []
    { ticker := none, party := none, transaction := none }
    noTickerTrade).2.1 "msft" (by decide) rfl

/-- C7: the result of `filterTrades` is an order-preserving subsequence
of the input, and the listing route with no parameters returns the full
input in order with every trade annotated with its computed tag. -/
theorem filter_stable_subsequence
    (l : List TradeWithSignals) (params : FilterParams) :
    List.Sublist (filterTrades l params) l ∧
    listTradesRoute l { ticker := none, party := none, transaction := none } =
      l.map (fun t => { t with donchian := some (computeDonchianTag t) }) := by
  constructor
  · exact List.filter_sublist l
  · show (l.filter (tradePasses ⟨none, none, none⟩)).map attachDonchian = _
    have h : l.filter (tradePasses ⟨none, none, none⟩) = l :=
      List.filter_eq_self.mpr (fun a _ => rfl)
    rw [h]
    rfl

/-- C8: lookup-by-id yields the annotated trade exactly when some trade
matches the requested identifier, and an explicit not-found outcome
otherwise; it performs no filtering other than identifier equality. -/
theorem lookup_by_id_contract (l : List TradeWithSignals) (ident : Int) :
    (lookupTradeById l ident = LookupResult.notFound ↔
      ∀ t ∈ l, t.id ≠ ident) ∧
    ((∃ t ∈ l, t.id = ident) →
      ∃ t ∈ l, t.id = ident ∧
        lookupTradeById l ident = LookupResult.found (attachDonchian t)) ∧
    (∀ u, lookupTradeById l ident = LookupResult.found u →
      ∃ t ∈ l, t.id = ident ∧ u = attachDonchian t) := by
  rcases h : l.find? (fun t => t.id = ident) with _ | t
  · have hall : ∀ t ∈ l, t.id ≠ ident := by
      intro t ht
      have := List.find?_eq_none.mp h t ht
      simpa using this
    refine ⟨?_, ?_, ?_⟩
    · simp only [lookupTradeById, h]
      exact ⟨fun _ => hall, fun _ => trivial⟩
    · rintro ⟨t, ht, hid⟩
      exact absurd hid (hall t ht)
    · intro u hu
      rw [lookupTradeById, h] at hu
      exact LookupResult.noConfusion hu
  · have htmem : t ∈ l := List.mem_of_find?_eq_some h
    have htid : t.id = ident := by simpa using List.find?_some h
    refine ⟨?_, ?_, ?_⟩
    · simp only [lookupTradeById, h]
      constructor
      · intro habs
        exact LookupResult.noConfusion habs
      · intro hall
        exact absurd htid (hall t htmem)
    · intro _
      refine ⟨t, htmem, htid, ?_⟩
      rw [lookupTradeById, h]
    · intro u hu
      rw [lookupTradeById, h] at hu
      injection hu with h2
      exact ⟨t, htmem, htid, h2.symm⟩

/-- C8 witness: lookup of identifier 2 in a singleton collection holding
the trade with id 2 returns that trade, annotated. -/
theorem lookup_by_id_contract_witness :
    ∃ t ∈ [msftTrade], t.id = 2 ∧
      lookupTradeById [msftTrade] 2 =
        LookupResult.found (attachDonchian t) :=
  (lookup_by_id_contract [msftTrade] 2).2.1 ⟨msftTrade, by decide, rfl⟩

/-- C10: every non-absent tag has at most one of
breakoutLong/breakdownShort set, breakoutLong forces zone upper,
breakdownShort forces zone lower, and the zone is absent only when the
reference price sma20 strictly exceeds donchianHigh20. -/
theorem classify_tag_invariant (trade : TradeWithSignals)
    (tag : DonchianTag) (h : computeDonchianTag trade = some tag) :
    (¬ (tag.breakoutLong = true ∧ tag.breakdownShort = true)) ∧
    (tag.breakoutLong = true → tag.zone = some Zone.upper) ∧
    (tag.breakdownShort = true → tag.zone = some Zone.lower) ∧
    (tag.zone = none →
      ∃ s p dH, trade.signals = some s ∧ s.sma20 = some p ∧
        s.donchianHigh20 = some dH ∧ dH < p) := by
  rcases hs : trade.signals with _ | s
  · simp [computeDonchianTag, hs] at h
  rcases h1 : s.sma20 with _ | p
  · simp [computeDonchianTag, hs, h1] at h
  rcases h2 : s.donchianHigh20 with _ | dH
  · simp [computeDonchianTag, hs, h1, h2] at h
  rcases h3 : s.donchianLow20 with _ | dL
  · simp [computeDonchianTag, hs, h1, h2, h3] at h
  rcases h4 : s.donchianMid20 with _ | dM
  · simp [computeDonchianTag, hs, h1, h2, h3, h4] at h
  simp only [computeDonchianTag, hs, h1, h2, h3, h4] at h
  split_ifs at h with hc1 hc2
  · injection h with h'
    subst h'
    refine ⟨by simp, fun _ => rfl, by simp, by simp⟩
  · injection h with h'
    subst h'
    refine ⟨by simp, by simp, fun _ => rfl, by simp⟩
  · injection h with h'
    subst h'
    refine ⟨by simp, by simp, by simp, ?_⟩
    intro hz
    simp only at hz
    rw [baseZone] at hz
    split_ifs at hz with b1 b2 b3
    have hLp : dL < p := not_le.mp b3
    have hMp : dM ≤ p := le_of_not_lt (fun hlt => b2 ⟨hlt, hLp⟩)
    have hHp : dH < p := lt_of_not_le (fun hle => b1 ⟨hMp, hle⟩)
    exact ⟨s, p, dH, rfl, h1, h2, hHp⟩

/-- C10 witness: the invariant instantiated at a Sale above the channel
high (price 111, channel 90/100/110), whose tag has absent zone. -/
theorem classify_tag_invariant_witness :
    computeDonchianTag
      (mkTrade TransactionType.Sale
        (some (mkChannelSignals (some 111) (some 110) (some 90)
          (some 100)))) =
      some { breakoutLong := false, breakdownShort := false, zone := none } ∧
    (({ breakoutLong := false, breakdownShort := false,
        zone := none } : DonchianTag).zone = none →
      ∃ s p dH,
        (mkTrade TransactionType.Sale
          (some (mkChannelSignals (some 111) (some 110) (some 90)
            (some 100)))).signals = some s ∧
        s.sma20 = some p ∧ s.donchianHigh20 = some dH ∧ dH < p) :=
  ⟨by decide,
    (classify_tag_invariant
      (mkTrade TransactionType.Sale
        (some (mkChannelSignals (some 111) (some 110) (some 90)
          (some 100))))
      { breakoutLong := false, breakdownShort := false, zone := none }
      (by decide)).2.2.2⟩

/-- C9 counterexample: the listing route does not trim string query
parameters. With raw ticker parameter `" MSFT "` on a collection holding
the trade with ticker `"MSFT"`, the route returns the empty list, while
filtering with the spec's trimmed decoding returns the trade; so the two
disagree at this concrete input. -/
theorem boundary_decoding_counterexample :
    listTradesRoute [msftTrade]
      ⟨decodeStringParam (some " MSFT "), none, none⟩ = [] ∧
    listTradesRoute [msftTrade]
      ⟨decodeStringParamSpec (some " MSFT "), none, none⟩ =
      [attachDonchian msftTrade] ∧
    ¬ (listTradesRoute [msftTrade]
        ⟨decodeStringParam (some " MSFT "), none, none⟩ =
      listTradesRoute [msftTrade]
        ⟨decodeStringParamSpec (some " MSFT "), none, none⟩) := by
  refine ⟨by decide, by decide, by decide⟩

/-- C9 amended: the boundary passes the ticker, party and transaction
query parameters through untrimmed; an empty string imposes no
constraint (treated as not provided); and the bullishOnly and
donchianBreakoutsOnly flags are true exactly when the raw string is the
literal `"true"`, anything else (including absent) being false. -/
theorem boundary_decoding_amended :
    (∀ v : Option String, decodeFlag v = true ↔ v = some "true") ∧
    (decodeFlag none = false) ∧
    (∀ s : String, decodeStringParam (some s) = some s) ∧
    (∀ (l : List TradeWithSignals) (pP pX : Option String),
      filterTrades l ⟨some "", pP, pX⟩ = filterTrades l ⟨none, pP, pX⟩) ∧
    (∀ (l : List TradeWithSignals) (pT pX : Option String),
      filterTrades l ⟨pT, some "", pX⟩ = filterTrades l ⟨pT, none, pX⟩) ∧
    (∀ (l : List TradeWithSignals) (pT pP : Option String),
      filterTrades l ⟨pT, pP, some ""⟩ = filterTrades l ⟨pT, pP, none⟩) := by
  refine ⟨?_, rfl, fun s => rfl, ?_, ?_, ?_⟩
  · intro v
    simp [decodeFlag]
  · intro l pP pX
    exact List.filter_congr (fun a _ => by simp [tradePasses, tickerOk])
  · intro l pT pX
    exact List.filter_congr (fun a _ => by simp [tradePasses, partyOk])
  · intro l pT pP
    exact List.filter_congr (fun a _ => by
      simp [tradePasses, transactionOk])
